import Mathlib

/-!
Verification development for the fraud-detection feature pipeline.

The embedding models, over exact rationals (floats are idealised as `ℚ`):
  * the feature-engineering transforms of `src/features/feature_engineer.py`
    and the inline feature block of `api/main.py` (`predict_fraud`);
  * the fit/apply preprocessor of `src/features/preprocessor.py`
    (`DataPreprocessor`): label encoding (sklearn `LabelEncoder`),
    standard scaling (sklearn `StandardScaler`), and the
    `fit_transform` / `transform` pipeline entry points;
  * the drift scan of `monitoring/fraud_monitor.py`
    (`FraudMonitor.detect_data_drift`), with the external two-sample
    Kolmogorov–Smirnov test (`scipy.stats.ks_2samp`) kept abstract as a
    function parameter returning `Option` (a `none` models a raised,
    caught exception).

A pandas `DataFrame` is modelled as an association list from column name
to a typed column (numeric, string, or datetime values).  Transcendental
float intrinsics (`np.log1p`, `sqrt` inside `StandardScaler`) are modelled
by a function parameter resp. an integer-precision square root; no theorem
below depends on their values away from the exactly-representable cases.
-/

namespace FraudPipeline

/-- A pandas timestamp, restricted to the accessor fields the pipeline
reads (`.dt.hour`, `.dt.dayofweek`, `.dt.day`). -/
structure Stamp where
  hour : ℤ
  dayofweek : ℤ
  day : ℤ
deriving DecidableEq, Repr

/-- A typed DataFrame column: float/int values, string (`object`) values,
or datetime values. -/
inductive Col where
  | num (vals : List ℚ)
  | cat (vals : List String)
  | dt (vals : List Stamp)
deriving DecidableEq, Repr

/-- A DataFrame: an ordered association list of named columns. -/
abbrev Frame := List (String × Col)

/-- `df.columns`. -/
def frameCols (df : Frame) : List String := df.map Prod.fst

/-- `col in df.columns`. -/
def frameHas (df : Frame) (n : String) : Bool := (frameCols df).contains n

/-- `df[n]` (first column with that name). -/
def frameGet : Frame → String → Option Col
  | [], _ => none
  | p :: rest, n => if p.1 = n then some p.2 else frameGet rest n

/-- `df[n] = c`: overwrite the column in place if present, else append. -/
def frameSet : Frame → String → Col → Frame
  | [], n, c => [(n, c)]
  | p :: rest, n, c => if p.1 = n then (n, c) :: rest else p :: frameSet rest n c

/-- `df.drop(columns=ns, errors='ignore')`. -/
def frameDrop (df : Frame) (ns : List String) : Frame :=
  df.filter (fun p => ¬ ns.contains p.1)

/-- Truncation toward zero, the semantics of numpy `.astype(int)` on a
nonnegative float (`Int` division in Lean truncates toward zero). -/
def ratTrunc (q : ℚ) : ℤ := q.num / (q.den : ℤ)

/-- Integer square root (the largest `k` with `k * k ≤ n`), written so
that it evaluates by kernel reduction. -/
def natSqrt (n : ℕ) : ℕ :=
  ((List.range (n + 1)).filter (fun k => k * k ≤ n)).length - 1

/-- Integer-precision model of the float square root used inside
`StandardScaler`; exact on perfect squares and at `0`, which are the only
points any theorem below evaluates it at. -/
def ratSqrt (q : ℚ) : ℚ := mkRat (natSqrt q.num.toNat : ℤ) (natSqrt q.den)

/-! ## FeatureEngineer (`src/features/feature_engineer.py`) -/

/-- `pd.cut(amount, bins=[0, 50, 200, 1000, inf], labels=[...]).astype(str)`:
right-closed intervals `(0,50]`, `(50,200]`, `(200,1000]`, `(1000,∞)`;
values outside every bin (here `amount ≤ 0`) become `NaN`, which
`.astype(str)` renders as the string `"nan"`.  Elementwise semantics of
`feature_engineer.py` lines 29–33 and `api/main.py` lines 121–122. -/
def amountCategory (a : ℚ) : String :=
  if 0 < a ∧ a ≤ 50 then "very_low"
  else if 50 < a ∧ a ≤ 200 then "low"
  else if 200 < a ∧ a ≤ 1000 then "medium"
  else if 1000 < a then "high"
  else "nan"

/-- `pd.cut(hour, bins=[0, 6, 12, 18, 24], labels=[...]).astype(str)`
(feature_engineer.py lines 60–64): right-closed bins, `hour = 0` falls
outside every bin and becomes `"nan"`. -/
def timeOfDay (h : ℤ) : String :=
  if 0 < h ∧ h ≤ 6 then "night"
  else if 6 < h ∧ h ≤ 12 then "morning"
  else if 12 < h ∧ h ≤ 18 then "afternoon"
  else if 18 < h ∧ h ≤ 24 then "evening"
  else "nan"

/-- Fetch a numeric column; a missing column is a pandas `KeyError`
naming the column, a differently-typed one a `TypeError`. -/
def getNumCol (df : Frame) (n : String) : Except String (List ℚ) :=
  match frameGet df n with
  | some (Col.num vs) => .ok vs
  | some _ => .error ("TypeError: " ++ n)
  | none => .error ("KeyError: " ++ n)

/-- `FeatureEngineer.create_amount_features` (lines 21–38).  The float
intrinsic `np.log1p` is a parameter `log1p`; column accesses `df['amount']`
and `df['avg_transaction_amount_30d']` raise (pandas `KeyError`) when the
column is absent. -/
def create_amount_features (log1p : ℚ → ℚ) (df : Frame) : Except String Frame :=
  match getNumCol df "amount" with
  | .error msg => .error msg
  | .ok amounts =>
    let df1 := frameSet df "amount_log" (Col.num (amounts.map log1p))
    let df2 := frameSet df1 "amount_category" (Col.cat (amounts.map amountCategory))
    match getNumCol df2 "avg_transaction_amount_30d" with
    | .error msg => .error msg
    | .ok avg =>
      .ok (frameSet df2 "amount_to_avg_ratio"
        (Col.num ((amounts.zip avg).map (fun p => p.1 / (p.2 + 1/100000)))))

/-- `FeatureEngineer.create_temporal_features` (lines 40–69).  The whole
block is guarded by `if datetime_col in df.columns:` — when the column is
absent the input is returned unchanged.  In every pipeline reaching this
function the timestamp column, when present, already holds datetimes; the
`pd.to_datetime` string-parsing fallback is outside the embedding and
modelled as an error. -/
def create_temporal_features (df : Frame) : Except String Frame :=
  match frameGet df "timestamp" with
  | none => .ok df
  | some (Col.dt ts) =>
    let df2 := frameSet df "hour" (Col.num (ts.map (fun s => (s.hour : ℚ))))
    let df3 := frameSet df2 "day_of_week" (Col.num (ts.map (fun s => (s.dayofweek : ℚ))))
    let df4 := frameSet df3 "day_of_month" (Col.num (ts.map (fun s => (s.day : ℚ))))
    let df5 := frameSet df4 "is_weekend"
      (Col.num (ts.map (fun s => if 5 ≤ s.dayofweek then 1 else 0)))
    let df6 := frameSet df5 "time_of_day" (Col.cat (ts.map (fun s => timeOfDay s.hour)))
    let df7 := frameSet df6 "is_peak_hour"
      (Col.num (ts.map (fun s => if s.hour ∈ ([8, 9, 10, 17, 18, 19] : List ℤ) then 1 else 0)))
    .ok df7
  | some _ => .error "to_datetime: conversion from a non-datetime column is outside the embedding"

/-- `FeatureEngineer.create_risk_score` (lines 107–121), elementwise.
`is_weekend` and `is_peak_hour` are the columns created by
`create_temporal_features` (present throughout `FeatureEngineer.fit_transform`;
`df.get(..., 0)` only matters when they are absent).  Note the two trailing
terms: `(is_weekend * 0.5).astype(int)` — float truncation — and the
off-peak bonus `(is_peak_hour == 0).astype(int)`. -/
def risk_score_train (amount : ℚ) (card_present : ℤ) (distance_from_home : ℚ)
    (num_transactions_24h : ℤ) (is_weekend is_peak_hour : ℤ) : ℤ :=
  (if 1000 < amount then 1 else 0) * 2
  + (if card_present = 0 then 1 else 0)
  + (if 100 < distance_from_home then 1 else 0)
  + (if 5 < num_transactions_24h then 1 else 0)
  + ratTrunc ((is_weekend : ℚ) * (1/2))
  + (if is_peak_hour = 0 then 1 else 0)

/-- The serving-time risk score computed inline in `predict_fraud`
(`api/main.py` lines 148–154), elementwise. -/
def risk_score_api (amount : ℚ) (card_present : ℤ) (distance_from_home : ℚ)
    (num_transactions_24h : ℤ) : ℤ :=
  (if 1000 < amount then 1 else 0) * 2
  + (if card_present = 0 then 1 else 0)
  + (if 100 < distance_from_home then 1 else 0)
  + (if 5 < num_transactions_24h then 1 else 0)

/-! ## DataPreprocessor (`src/features/preprocessor.py`)

State-passing embedding: every method takes and returns the object state
explicitly.  `sklearn.LabelEncoder` stores `classes_`, the *sorted*
distinct values seen at fit time (`np.unique`); `transform` maps a value
to its index in `classes_`.  `sklearn.StandardScaler` stores per-column
mean and scale, the scale being the population standard deviation with
zero replaced by `1.0` (`_handle_zeros_in_scale`). -/

/-- numpy's string comparison: lexicographic on the code-point sequence
(the character list of the string). -/
def strLe (a b : String) : Prop := a.data ≤ b.data

/-- Strict lexicographic string order. -/
def strLt (a b : String) : Prop := a.data < b.data

instance : DecidableRel strLe := fun a b => inferInstanceAs (Decidable (a.data ≤ b.data))

instance : DecidableRel strLt := fun a b => inferInstanceAs (Decidable (a.data < b.data))

/-- `LabelEncoder.fit` on a list of strings: the sorted distinct values
(`np.unique`). -/
def leFit (vs : List String) : List String :=
  List.insertionSort strLe vs.dedup

/-- `LabelEncoder.transform([v])[0]` for `v` among the fitted classes:
the index of `v` in the sorted class list. -/
def leTransform1 (classes : List String) (v : String) : ℤ :=
  (classes.indexOf v : ℤ)

/-- The per-value apply-time encoding of `preprocessor.py` lines 90–92:
`le.transform([x])[0] if x in le.classes_ else -1`. -/
def encodeApply1 (classes : List String) (v : String) : ℤ :=
  if v ∈ classes then leTransform1 classes v else -1

/-- Association-list lookup, modelling Python `dict` access. -/
def lookupA {α : Type} : List (String × α) → String → Option α
  | [], _ => none
  | p :: rest, k => if p.1 = k then some p.2 else lookupA rest k

/-- Association-list store, modelling Python `dict` assignment
(replace in place if the key exists, append otherwise). -/
def updateA {α : Type} : List (String × α) → String → α → List (String × α)
  | [], k, v => [(k, v)]
  | p :: rest, k, v => if p.1 = k then (k, v) :: rest else p :: updateA rest k v

/-- The encoder dictionary `self.label_encoders`: column name ↦ fitted
`classes_`. -/
abbrev EncMap := List (String × List String)

/-- One iteration of the `encode_categorical_features` loop with
`fit=True` (preprocessor.py lines 81–85): when the column is present and
holds strings, fit a fresh encoder on it and overwrite the column with
the codes.  (Columns listed in `categorical_features` always hold
strings — `identify_feature_types` selects exactly the string columns —
so `astype(str)` is the identity and is not modelled on other column
kinds.) -/
def encFitStep (acc : EncMap × Frame) (col : String) : EncMap × Frame :=
  match frameGet acc.2 col with
  | some (Col.cat vs) =>
    let classes := leFit vs
    (updateA acc.1 col classes,
     frameSet acc.2 col (Col.num (vs.map (fun v => (leTransform1 classes v : ℚ)))))
  | _ => acc

/-- One iteration of the loop with `fit=False` (lines 86–92): encode via
the stored encoder, sending unseen values to the sentinel `-1`; skip the
column silently when no encoder was stored for it. -/
def encApplyStep (enc : EncMap) (df : Frame) (col : String) : Frame :=
  match frameGet df col with
  | some (Col.cat vs) =>
    match lookupA enc col with
    | some classes => frameSet df col (Col.num (vs.map (fun v => (encodeApply1 classes v : ℚ))))
    | none => df
  | _ => df

/-- The fitted scaler: per-column means and scales, positionally aligned
with `numeric_features`. -/
structure ScalerState where
  means : List ℚ
  scales : List ℚ
deriving DecidableEq, Repr

/-- Column mean, `StandardScaler` (population statistics). -/
def colMean (xs : List ℚ) : ℚ := xs.sum / (xs.length : ℚ)

/-- Column variance with denominator `n` (`ddof = 0`, as in
`StandardScaler`). -/
def colVar (xs : List ℚ) : ℚ :=
  (xs.map (fun x => (x - colMean xs) ^ 2)).sum / (xs.length : ℚ)

/-- `sklearn.preprocessing._handle_zeros_in_scale`: a zero standard
deviation is replaced by `1.0` so that constant columns scale to `0`
instead of dividing by zero. -/
def handleZeros (s : ℚ) : ℚ := if s = 0 then 1 else s

/-- Fit the scaler on one column: mean and safe scale. -/
def scalerFitCol (xs : List ℚ) : ℚ × ℚ :=
  (colMean xs, handleZeros (ratSqrt (colVar xs)))

/-- `StandardScaler.fit` over the numeric-feature columns in order. -/
def scalerFit (cols : List (List ℚ)) : ScalerState :=
  ⟨cols.map (fun c => (scalerFitCol c).1), cols.map (fun c => (scalerFitCol c).2)⟩

/-- `(x - mean) / scale` for one value. -/
def scaleVal (mean scale x : ℚ) : ℚ := (x - mean) / scale

/-- Scale the listed columns one after another, each paired with its
fitted `(mean, scale)`. -/
def applyScalerGo : Frame → List (String × ℚ × ℚ) → Except String Frame
  | df, [] => .ok df
  | df, p :: rest =>
    match getNumCol df p.1 with
    | .error msg => .error msg
    | .ok vs => applyScalerGo (frameSet df p.1 (Col.num (vs.map (scaleVal p.2.1 p.2.2)))) rest

/-- `self.scaler.transform(df[self.numeric_features])` written back into
the frame: every listed column must be present and numeric (else pandas
raises a `KeyError`/`TypeError`), and the scaler must have been fitted on
the same number of columns. -/
def applyScaler (sc : ScalerState) (feats : List String) (df : Frame) :
    Except String Frame :=
  if feats.length = sc.means.length ∧ feats.length = sc.scales.length then
    applyScalerGo df (feats.zip (sc.means.zip sc.scales))
  else .error "ValueError: scaler shape mismatch"

/-- The mutable state of a `DataPreprocessor` object. -/
structure PreState where
  target_col : String
  label_encoders : EncMap
  scaler : Option ScalerState
  numeric_features : List String
  categorical_features : List String
  features_to_drop : List String
deriving DecidableEq, Repr

/-- `DataPreprocessor.__init__` (lines 19–38): no encoders, no scaler,
empty feature lists. -/
def initState (target_col : String) : PreState :=
  ⟨target_col, [], none, [], [], []⟩

/-- `DataPreprocessor.identify_feature_types` (lines 40–60): always drop
`transaction_id`, `timestamp` and the target when present; split the
remaining columns into numeric and string-typed ones
(`select_dtypes`). -/
def identify_feature_types (st : PreState) (df : Frame) : PreState :=
  let drop_cols := (["transaction_id", "timestamp", st.target_col]).filter
    (fun c => frameHas df c)
  let remaining := (frameCols df).filter (fun c => ¬ drop_cols.contains c)
  { st with
    features_to_drop := drop_cols
    numeric_features := remaining.filter
      (fun c => match frameGet df c with | some (Col.num _) => true | _ => false)
    categorical_features := remaining.filter
      (fun c => match frameGet df c with | some (Col.cat _) => true | _ => false) }

/-- `DataPreprocessor.encode_categorical_features` (lines 62–95): loop
over `self.categorical_features`; with `fit=True` fit-and-encode, with
`fit=False` apply the stored encoders (unseen → `-1`, missing encoder →
skip). -/
def encode_categorical_features (st : PreState) (df : Frame) (fit : Bool) :
    PreState × Frame :=
  if fit then
    let r := st.categorical_features.foldl encFitStep (st.label_encoders, df)
    ({ st with label_encoders := r.1 }, r.2)
  else
    (st, st.categorical_features.foldl (encApplyStep st.label_encoders) df)

/-- `DataPreprocessor.scale_numeric_features` (lines 97–125): with
`fit=True`, fit a fresh `StandardScaler` on the numeric columns and scale
them; with `fit=False`, apply the stored scaler — and when none was ever
fitted (`if self.scaler:` is falsy) return the data *unchanged*. -/
def scale_numeric_features (st : PreState) (df : Frame) (fit : Bool) :
    Except String (PreState × Frame) :=
  if fit then
    match st.numeric_features.mapM (getNumCol df) with
    | .error msg => .error msg
    | .ok cols =>
      let sc := scalerFit cols
      match applyScaler sc st.numeric_features df with
      | .error msg => .error msg
      | .ok df' => .ok ({ st with scaler := some sc }, df')
  else
    match st.scaler with
    | none => .ok (st, df)
    | some sc =>
      match applyScaler sc st.numeric_features df with
      | .error msg => .error msg
      | .ok df' => .ok (st, df')

/-- `DataPreprocessor.fit_transform` (lines 127–167): identify feature
types, split off the target column when present, drop the identified
columns, encode with `fit=True`, scale with `fit=True`.  Returns the new
state, the feature matrix and the target column. -/
def fit_transform (st : PreState) (df : Frame) :
    Except String (PreState × Frame × Option Col) :=
  let st1 := identify_feature_types st df
  let yd := if frameHas df st1.target_col then
      (frameGet df st1.target_col, frameDrop df [st1.target_col])
    else (none, df)
  let dfF := frameDrop yd.2 st1.features_to_drop
  let e := encode_categorical_features st1 dfF true
  match scale_numeric_features e.1 e.2 true with
  | .error msg => .error msg
  | .ok (st2, dfS) => .ok (st2, dfS, yd.1)

/-- `DataPreprocessor.transform` (lines 169–196): same pipeline against
the fitted state, with `fit=False` everywhere and no re-identification. -/
def transform (st : PreState) (df : Frame) :
    Except String (Frame × Option Col) :=
  let yd := if frameHas df st.target_col then
      (frameGet df st.target_col, frameDrop df [st.target_col])
    else (none, df)
  let dfF := frameDrop yd.2 st.features_to_drop
  let e := encode_categorical_features st dfF false
  match scale_numeric_features e.1 e.2 false with
  | .error msg => .error msg
  | .ok (_, dfS) => .ok (dfS, yd.1)

/-! ## FraudMonitor.detect_data_drift (`monitoring/fraud_monitor.py`) -/

/-- A monitoring-data column: numeric cells, `none` marking a missing
value (`NaN`). -/
abbrev DCol := List (Option ℚ)

/-- A monitoring DataFrame. -/
abbrev DFrame := List (String × DCol)

/-- `series.dropna()`. -/
def dropna (c : DCol) : List ℚ := c.filterMap id

/-- `df.columns` of a monitoring frame. -/
def dframeCols (df : DFrame) : List String := df.map Prod.fst

/-- `df[n]` on a monitoring frame. -/
def dframeGet : DFrame → String → Option DCol
  | [], _ => none
  | p :: rest, n => if p.1 = n then some p.2 else dframeGet rest n

/-- One flagged feature: `{'feature': col, 'p_value': p, 'statistic': s}`
(fraud_monitor.py lines 80–84). -/
structure DriftEntry where
  feature : String
  p_value : ℚ
  statistic : ℚ
deriving DecidableEq, Repr

/-- The drift-scan result (the wall-clock `timestamp` field is not
modelled). -/
structure DriftResult where
  features_with_drift : List DriftEntry
  drift_detected : Bool
deriving DecidableEq, Repr

/-- An abstract two-sample test: `scipy.stats.ks_2samp` returning
`(statistic, p_value)`; `none` models an exception raised inside the
`try` block and caught by the bare `except: continue`. -/
abbrev KSTest := List ℚ → List ℚ → Option (ℚ × ℚ)

/-- `list(set(baseline.columns) & set(new.columns))` — the distinct
column names present in both frames (Python set order is unspecified;
every property proved below is order-independent). -/
def commonCols (b n : DFrame) : List String :=
  (dframeCols b).dedup.filter (fun c => (dframeCols n).contains c)

/-- One iteration of the `for col in common_cols:` loop
(fraud_monitor.py lines 70–87), acting on the accumulated
`(features_with_drift, drift_detected)` pair. -/
def driftStep (ks : KSTest) (b n : DFrame) (threshold : ℚ)
    (acc : List DriftEntry × Bool) (col : String) : List DriftEntry × Bool :=
  match dframeGet b col, dframeGet n col with
  | some bc, some nc =>
    let bv := dropna bc
    let nv := dropna nc
    if 0 < bv.length ∧ 0 < nv.length then
      match ks bv nv with
      | some (statistic, p_value) =>
        if p_value < threshold then (acc.1 ++ [⟨col, p_value, statistic⟩], true) else acc
      | none => acc
    else acc
  | _, _ => acc

/-- `FraudMonitor.detect_data_drift` (lines 51–90), with the KS test
abstract. -/
def detect_data_drift (ks : KSTest) (b n : DFrame) (threshold : ℚ) : DriftResult :=
  let r := (commonCols b n).foldl (driftStep ks b n threshold) ([], false)
  ⟨r.1, r.2⟩

/-- The entry one loop iteration appends for a column, or `none` when
the column is skipped or not flagged — the functional core of
`driftStep`, used to characterise the fold. -/
def driftEntryFor (ks : KSTest) (b n : DFrame) (threshold : ℚ) (col : String) :
    Option DriftEntry :=
  match dframeGet b col, dframeGet n col with
  | some bc, some nc =>
    let bv := dropna bc
    let nv := dropna nc
    if 0 < bv.length ∧ 0 < nv.length then
      match ks bv nv with
      | some (statistic, p_value) =>
        if p_value < threshold then some ⟨col, p_value, statistic⟩ else none
      | none => none
    else none
  | _, _ => none

deriving instance DecidableEq for Except

/-! ## Supporting lemmas -/

lemma str_data_inj {a b : String} (h : a.data = b.data) : a = b :=
  congrArg String.mk h

instance : IsTotal String strLe := ⟨fun a b => le_total a.data b.data⟩

instance : IsTrans String strLe := ⟨fun _ _ _ h1 h2 => le_trans h1 h2⟩

lemma strLt_irrefl (a : String) : ¬ strLt a a := lt_irrefl a.data

lemma strLt_asymm {a b : String} (h : strLt a b) : ¬ strLt b a := lt_asymm h

lemma mem_leFit {v : String} {vs : List String} : v ∈ leFit vs ↔ v ∈ vs := by
  simp [leFit]

lemma nodup_leFit (vs : List String) : (leFit vs).Nodup :=
  ((List.perm_insertionSort strLe vs.dedup).nodup_iff).mpr (List.nodup_dedup vs)

lemma pairwise_lt_leFit (vs : List String) : (leFit vs).Pairwise strLt := by
  have hs : (leFit vs).Pairwise strLe := List.sorted_insertionSort strLe vs.dedup
  have hn : (leFit vs).Pairwise (fun a b => a ≠ b) := nodup_leFit vs
  exact (hs.and hn).imp (fun hab =>
    lt_of_le_of_ne hab.1 (fun hd => hab.2 (str_data_inj hd)))

lemma indexOf_lt_of_pairwise_lt :
    ∀ (l : List String), l.Pairwise strLt → ∀ {v w : String}, v ∈ l → w ∈ l →
      (strLt v w ↔ l.indexOf v < l.indexOf w) := by
  intro l
  induction l with
  | nil => intro _ v w hv; exact absurd hv (List.not_mem_nil v)
  | cons a t ih =>
    intro hp v w hv hw
    obtain ⟨ha, ht⟩ := List.pairwise_cons.mp hp
    have hat : a ∉ t := fun hmem => strLt_irrefl a (ha a hmem)
    by_cases hva : v = a
    · by_cases hwa : w = a
      · rw [List.indexOf_cons_eq t hva.symm, List.indexOf_cons_eq t hwa.symm]
        refine iff_of_false ?_ (lt_irrefl 0)
        rw [hva, hwa]
        exact strLt_irrefl a
      · have hw' : w ∈ t := (List.mem_cons.mp hw).resolve_left hwa
        rw [List.indexOf_cons_eq t hva.symm, List.indexOf_cons_ne t (fun e => hwa e.symm)]
        refine iff_of_true ?_ (Nat.succ_pos _)
        rw [hva]
        exact ha w hw'
    · have hv' : v ∈ t := (List.mem_cons.mp hv).resolve_left hva
      by_cases hwa : w = a
      · rw [List.indexOf_cons_ne t (fun e => hva e.symm), List.indexOf_cons_eq t hwa.symm]
        refine iff_of_false ?_ (Nat.not_lt_zero _)
        rw [hwa]
        exact strLt_asymm (ha v hv')
      · have hw' : w ∈ t := (List.mem_cons.mp hw).resolve_left hwa
        rw [List.indexOf_cons_ne t (fun e => hva e.symm),
          List.indexOf_cons_ne t (fun e => hwa e.symm), Nat.succ_lt_succ_iff]
        exact ih ht hv' hw'

lemma frameGet_eq_none {df : Frame} {n : String} (h : frameHas df n = false) :
    frameGet df n = none := by
  induction df with
  | nil => rfl
  | cons p rest ih =>
    simp only [frameHas, frameCols, List.map_cons, List.contains_cons, Bool.or_eq_false_iff,
      beq_eq_false_iff_ne, ne_eq] at h
    simp only [frameGet]
    rw [if_neg (fun e => h.1 e.symm)]
    exact ih (by simpa [frameHas, frameCols] using h.2)

lemma frameGet_frameSet_ne {df : Frame} {m n : String} {c : Col} (h : m ≠ n) :
    frameGet (frameSet df n c) m = frameGet df m := by
  induction df with
  | nil =>
    simp only [frameSet, frameGet]
    rw [if_neg (fun e => h e.symm)]
  | cons p rest ih =>
    by_cases hp : p.1 = n
    · simp only [frameSet, if_pos hp, frameGet]
      rw [if_neg (fun e => h e.symm), if_neg (show ¬ p.1 = m from fun e => h (by rw [← e, hp]))]
    · simp only [frameSet, if_neg hp, frameGet]
      by_cases hm : p.1 = m
      · rw [if_pos hm, if_pos hm]
      · rw [if_neg hm, if_neg hm]
        exact ih

lemma lookupA_updateA_self {α : Type} (m : List (String × α)) (k : String) (v : α) :
    lookupA (updateA m k v) k = some v := by
  induction m with
  | nil => simp [updateA, lookupA]
  | cons p rest ih =>
    by_cases h : p.1 = k
    · simp [updateA, lookupA, h]
    · simp only [updateA, if_neg h, lookupA, ih]

lemma lookupA_updateA_ne {α : Type} {m : List (String × α)} {k k' : String} {v : α}
    (h : k ≠ k') : lookupA (updateA m k' v) k = lookupA m k := by
  induction m with
  | nil =>
    simp only [updateA, lookupA]
    rw [if_neg (fun e => h e.symm)]
  | cons p rest ih =>
    by_cases hp : p.1 = k'
    · simp only [updateA, if_pos hp, lookupA]
      rw [if_neg (fun e => h e.symm), if_neg (show ¬ p.1 = k from fun e => h (by rw [← e, hp]))]
    · simp only [updateA, if_neg hp, lookupA]
      by_cases hk : p.1 = k
      · rw [if_pos hk, if_pos hk]
      · rw [if_neg hk, if_neg hk]
        exact ih

lemma lookup_encFitFold {c : String} :
    ∀ (feats : List String), c ∉ feats → ∀ (enc : EncMap) (df : Frame),
      lookupA (feats.foldl encFitStep (enc, df)).1 c = lookupA enc c := by
  intro feats
  induction feats with
  | nil => intro _ enc df; rfl
  | cons f rest ih =>
    intro hc enc df
    have hcf : c ≠ f := fun e => hc (e ▸ List.mem_cons_self f rest)
    have hcr : c ∉ rest := fun hmem => hc (List.mem_cons_of_mem f hmem)
    rw [List.foldl_cons]
    cases hg : frameGet df f with
    | none => rw [show encFitStep (enc, df) f = (enc, df) from by simp [encFitStep, hg]]; exact ih hcr enc df
    | some col =>
      cases col with
      | num vs => rw [show encFitStep (enc, df) f = (enc, df) from by simp [encFitStep, hg]]; exact ih hcr enc df
      | dt vs => rw [show encFitStep (enc, df) f = (enc, df) from by simp [encFitStep, hg]]; exact ih hcr enc df
      | cat vs =>
        rw [show encFitStep (enc, df) f
            = (updateA enc f (leFit vs),
               frameSet df f (Col.num (vs.map (fun v => (leTransform1 (leFit vs) v : ℚ)))))
          from by simp [encFitStep, hg]]
        rw [ih hcr _ _]
        exact lookupA_updateA_ne hcf

lemma encFold_parity :
    ∀ (feats : List String), feats.Nodup → ∀ (enc : EncMap) (df : Frame),
      feats.foldl (encApplyStep (feats.foldl encFitStep (enc, df)).1) df
        = (feats.foldl encFitStep (enc, df)).2 := by
  intro feats
  induction feats with
  | nil => intro _ enc df; rfl
  | cons c rest ih =>
    intro hnd enc df
    have hc : c ∉ rest := (List.nodup_cons.mp hnd).1
    have hrest : rest.Nodup := (List.nodup_cons.mp hnd).2
    rw [List.foldl_cons, List.foldl_cons]
    cases hg : frameGet df c with
    | none =>
      rw [show encFitStep (enc, df) c = (enc, df) from by simp [encFitStep, hg]]
      rw [show ∀ E, encApplyStep E df c = df from fun E => by simp [encApplyStep, hg]]
      exact ih hrest enc df
    | some col =>
      cases col with
      | num vs =>
        rw [show encFitStep (enc, df) c = (enc, df) from by simp [encFitStep, hg]]
        rw [show ∀ E, encApplyStep E df c = df from fun E => by simp [encApplyStep, hg]]
        exact ih hrest enc df
      | dt vs =>
        rw [show encFitStep (enc, df) c = (enc, df) from by simp [encFitStep, hg]]
        rw [show ∀ E, encApplyStep E df c = df from fun E => by simp [encApplyStep, hg]]
        exact ih hrest enc df
      | cat vs =>
        rw [show encFitStep (enc, df) c
            = (updateA enc c (leFit vs),
               frameSet df c (Col.num (vs.map (fun v => (leTransform1 (leFit vs) v : ℚ)))))
          from by simp [encFitStep, hg]]
        have hlook : lookupA
            (rest.foldl encFitStep (updateA enc c (leFit vs),
              frameSet df c (Col.num (vs.map (fun v => (leTransform1 (leFit vs) v : ℚ)))))).1 c
            = some (leFit vs) := by
          rw [lookup_encFitFold rest hc]
          exact lookupA_updateA_self enc c (leFit vs)
        rw [show encApplyStep
            (rest.foldl encFitStep (updateA enc c (leFit vs),
              frameSet df c (Col.num (vs.map (fun v => (leTransform1 (leFit vs) v : ℚ)))))).1 df c
            = frameSet df c (Col.num (vs.map (fun v => (encodeApply1 (leFit vs) v : ℚ))))
          from by simp [encApplyStep, hg, hlook]]
        have hmap : vs.map (fun v => (encodeApply1 (leFit vs) v : ℚ))
            = vs.map (fun v => (leTransform1 (leFit vs) v : ℚ)) := by
          refine List.map_congr_left (fun v hv => ?_)
          rw [encodeApply1, if_pos (mem_leFit.mpr hv)]
        rw [hmap]
        exact ih hrest _ _

lemma identify_cat_nodup (st : PreState) (df : Frame) (h : (frameCols df).Nodup) :
    (identify_feature_types st df).categorical_features.Nodup := by
  simp only [identify_feature_types]
  exact (h.filter _).filter _

lemma driftStep_eq (ks : KSTest) (b n : DFrame) (t : ℚ)
    (acc : List DriftEntry × Bool) (col : String) :
    driftStep ks b n t acc col =
      match driftEntryFor ks b n t col with
      | some e => (acc.1 ++ [e], true)
      | none => acc := by
  cases hb : dframeGet b col with
  | none => simp [driftStep, driftEntryFor, hb]
  | some bc =>
    cases hn : dframeGet n col with
    | none => simp [driftStep, driftEntryFor, hb, hn]
    | some nc =>
      simp only [driftStep, driftEntryFor, hb, hn]
      by_cases hlen : 0 < (dropna bc).length ∧ 0 < (dropna nc).length
      · rw [if_pos hlen, if_pos hlen]
        cases hk : ks (dropna bc) (dropna nc) with
        | none => rfl
        | some pr =>
          obtain ⟨s, p⟩ := pr
          by_cases hp : p < t <;> simp [hp]
      · rw [if_neg hlen, if_neg hlen]

lemma foldl_driftStep (ks : KSTest) (b n : DFrame) (t : ℚ) :
    ∀ (cols : List String) (acc : List DriftEntry × Bool),
      cols.foldl (driftStep ks b n t) acc
        = (acc.1 ++ cols.filterMap (driftEntryFor ks b n t),
           acc.2 || cols.any (fun c => (driftEntryFor ks b n t c).isSome)) := by
  intro cols
  induction cols with
  | nil => intro acc; simp
  | cons c cs ih =>
    intro acc
    rw [List.foldl_cons, ih, driftStep_eq]
    cases hc : driftEntryFor ks b n t c with
    | none => simp [hc]
    | some e => simp [hc]

lemma detect_data_drift_eq (ks : KSTest) (b n : DFrame) (t : ℚ) :
    detect_data_drift ks b n t
      = ⟨(commonCols b n).filterMap (driftEntryFor ks b n t),
         (commonCols b n).any (fun c => (driftEntryFor ks b n t c).isSome)⟩ := by
  unfold detect_data_drift
  rw [foldl_driftStep]
  simp

lemma mem_commonCols {b n : DFrame} {col : String} :
    col ∈ commonCols b n ↔ col ∈ dframeCols b ∧ col ∈ dframeCols n := by
  simp [commonCols]

lemma driftEntryFor_eq_some_iff {ks : KSTest} {b n : DFrame} {t : ℚ} {col : String}
    {e : DriftEntry} :
    driftEntryFor ks b n t col = some e ↔
      ∃ bc nc s p, dframeGet b col = some bc ∧ dframeGet n col = some nc ∧
        dropna bc ≠ [] ∧ dropna nc ≠ [] ∧
        ks (dropna bc) (dropna nc) = some (s, p) ∧ p < t ∧ e = ⟨col, p, s⟩ := by
  constructor
  · intro h
    cases hb : dframeGet b col with
    | none =>
      simp only [driftEntryFor, hb] at h
      exact Option.noConfusion h
    | some bc =>
      cases hn : dframeGet n col with
      | none =>
        simp only [driftEntryFor, hb, hn] at h
        exact Option.noConfusion h
      | some nc =>
        simp only [driftEntryFor, hb, hn] at h
        by_cases hlen : 0 < (dropna bc).length ∧ 0 < (dropna nc).length
        · rw [if_pos hlen] at h
          cases hk : ks (dropna bc) (dropna nc) with
          | none =>
            simp only [hk] at h
            exact Option.noConfusion h
          | some pr =>
            obtain ⟨s, p⟩ := pr
            simp only [hk] at h
            by_cases hp : p < t
            · rw [if_pos hp] at h
              exact ⟨bc, nc, s, p, rfl, rfl,
                List.length_pos.mp hlen.1, List.length_pos.mp hlen.2, hk, hp,
                (Option.some.inj h).symm⟩
            · rw [if_neg hp] at h
              exact absurd h (by simp)
        · rw [if_neg hlen] at h
          exact absurd h (by simp)
  · rintro ⟨bc, nc, s, p, hb, hn, hbne, hnne, hk, hp, rfl⟩
    simp only [driftEntryFor, hb, hn, hk]
    rw [if_pos ⟨List.length_pos.mpr hbne, List.length_pos.mpr hnne⟩, if_pos hp]

/-! ## Claims -/

unseal Rat.mul Rat.inv Rat.add Rat.sub in
/-- Claim C2, counterexample: at an off-peak record (`is_peak_hour = 0`,
`is_weekend = 0`, amount 1500, card not present, distance 150, 8
transactions in 24h) the training-time `create_risk_score` yields 6 while
the serving-time block in `predict_fraud` yields 5: the two formulas are
not identical, and the training score is not the plain four-signal sum
the claim states. -/
theorem C2_counterexample :
    risk_score_train 1500 0 150 8 0 0 = 6 ∧ risk_score_api 1500 0 150 8 = 5 ∧
      risk_score_train 1500 0 150 8 0 0 ≠ risk_score_api 1500 0 150 8 := by
  decide

unseal Rat.mul Rat.inv Rat.add Rat.sub in
/-- Claim C2, amended: the serving-time risk score is the four-signal sum,
and the training-time score equals it plus an off-peak bonus of `1`
whenever `is_peak_hour = 0`; the weekend term `(is_weekend * 0.5).astype(int)`
truncates to `0` for the only values `is_weekend` takes (0 and 1). -/
theorem C2_amended (a : ℚ) (c : ℤ) (d : ℚ) (n : ℤ) (w p : ℤ) (hw : w = 0 ∨ w = 1) :
    risk_score_train a c d n w p = risk_score_api a c d n + (if p = 0 then 1 else 0) := by
  have h0 : ratTrunc (((0 : ℤ) : ℚ) * (1/2)) = 0 := by decide
  have h1 : ratTrunc (((1 : ℤ) : ℚ) * (1/2)) = 0 := by decide
  rcases hw with rfl | rfl <;>
    simp only [risk_score_train, risk_score_api, h0, h1] <;> ring

theorem C2_witness :
    risk_score_train 1500 0 150 8 1 12
      = risk_score_api 1500 0 150 8 + (if (12 : ℤ) = 0 then 1 else 0) :=
  C2_amended 1500 0 150 8 1 12 (Or.inr rfl)

/-- Claim C3, counterexample: with pandas right-closed bins `(0, 50]` is
the `"very_low"` bucket, so `amount = 50.0` maps to `"very_low"`, not
`"low"`; and an amount `≤ 0` falls outside every bin, becoming the string
`"nan"`, not `"very_low"`. -/
theorem C3_counterexample :
    amountCategory 50 = "very_low" ∧ amountCategory 50 ≠ "low" ∧
      amountCategory 0 = "nan" ∧ amountCategory 0 ≠ "very_low" := by
  decide

unseal Rat.mul Rat.inv Rat.add Rat.sub in
/-- Claim C3, amended: `50.0 ↦ "very_low"`, `50.01 ↦ "low"`,
`1000.0 ↦ "medium"`, `1000.01 ↦ "high"`, and every amount `≤ 0` maps to
the string `"nan"` (pandas `NaN` rendered by `.astype(str)`). -/
theorem C3_amended :
    amountCategory 50 = "very_low" ∧ amountCategory (5001/100) = "low" ∧
      amountCategory 1000 = "medium" ∧ amountCategory (100001/100) = "high" ∧
      ∀ a : ℚ, a ≤ 0 → amountCategory a = "nan" := by
  refine ⟨by decide, by decide, by decide, by decide, fun a ha => ?_⟩
  have h1 : ¬ (0 < a ∧ a ≤ 50) := fun hc => absurd hc.1 (not_lt.mpr ha)
  have h2 : ¬ (50 < a ∧ a ≤ 200) :=
    fun hc => absurd hc.1 (not_lt.mpr (le_trans ha (by norm_num)))
  have h3 : ¬ (200 < a ∧ a ≤ 1000) :=
    fun hc => absurd hc.1 (not_lt.mpr (le_trans ha (by norm_num)))
  have h4 : ¬ (1000 : ℚ) < a := not_lt.mpr (le_trans ha (by norm_num))
  rw [amountCategory, if_neg h1, if_neg h2, if_neg h3, if_neg h4]

theorem C3_witness : amountCategory (-3) = "nan" :=
  C3_amended.2.2.2.2 (-3) (by norm_num)

/-- Claim C4, counterexample: on a never-fitted `DataPreprocessor`,
apply-mode scaling (`if self.scaler:` is falsy) and apply-mode encoding
(no fitted feature lists, no stored encoders) return the input batch
unchanged and raise nothing — there is no `NotFittedError` anywhere in
the code, so the call is not fatal and the unscaled/unencoded data is
returned silently. -/
theorem C4_counterexample :
    scale_numeric_features (initState "is_fraud")
        [("amount", Col.num [10, 20]), ("merchant_category", Col.cat ["food", "gas"])] false
      = .ok (initState "is_fraud",
          [("amount", Col.num [10, 20]), ("merchant_category", Col.cat ["food", "gas"])]) ∧
    encode_categorical_features (initState "is_fraud")
        [("amount", Col.num [10, 20]), ("merchant_category", Col.cat ["food", "gas"])] false
      = (initState "is_fraud",
          [("amount", Col.num [10, 20]), ("merchant_category", Col.cat ["food", "gas"])]) :=
  ⟨rfl, rfl⟩

/-- Claim C4, amended: for every input batch, apply-mode scaling and
apply-mode encoding on a never-fitted preprocessor return the batch
unchanged, with no error of any kind. -/
theorem C4_amended (t : String) (df : Frame) :
    scale_numeric_features (initState t) df false = .ok (initState t, df) ∧
    encode_categorical_features (initState t) df false = (initState t, df) :=
  ⟨rfl, rfl⟩

/-- Claim C5: at apply time the encoder sends every value outside the
fitted classes to the sentinel `-1` without raising, and every fitted
value to exactly the code `LabelEncoder.transform` assigned at fit time;
in particular an encoder fit on `{"food", "gas"}` sends `"travel"` to
`-1`. -/
theorem C5_unseen_sentinel :
    (∀ (vs : List String) (v : String),
      (v ∈ vs → v ∈ leFit vs ∧ encodeApply1 (leFit vs) v = leTransform1 (leFit vs) v) ∧
      (v ∉ leFit vs → encodeApply1 (leFit vs) v = -1)) ∧
    encodeApply1 (leFit ["food", "gas"]) "travel" = -1 := by
  refine ⟨fun vs v => ⟨fun hv => ?_, fun hv => ?_⟩, by decide⟩
  · have hm : v ∈ leFit vs := mem_leFit.mpr hv
    exact ⟨hm, by rw [encodeApply1, if_pos hm]⟩
  · rw [encodeApply1, if_neg hv]

theorem C5_witness :
    "food" ∈ leFit ["food", "gas"] ∧
      encodeApply1 (leFit ["food", "gas"]) "food"
        = leTransform1 (leFit ["food", "gas"]) "food" :=
  (C5_unseen_sentinel.1 ["food", "gas"] "food").1 (by decide)

/-- Claim C6, counterexample: fitting on the sequence `["b", "a"]`, the
first distinct value seen (`"b"`, first-appearance index 0, before `"a"`
at index 1) receives code 1 while `"a"` receives code 0 — sklearn's
`LabelEncoder` sorts the classes, so codes do not follow first-seen
order. -/
theorem C6_counterexample :
    List.indexOf "b" ["b", "a"] < List.indexOf "a" ["b", "a"] ∧
      leTransform1 (leFit ["b", "a"]) "b" = 1 ∧
      leTransform1 (leFit ["b", "a"]) "a" = 0 ∧
      ¬ leTransform1 (leFit ["b", "a"]) "b" < leTransform1 (leFit ["b", "a"]) "a" := by
  decide

/-- Claim C6, amended: the fitted codes are assigned in sorted
(lexicographic, by code point) order of the distinct values: for any two
values of the fitted data, the code order agrees with the lexicographic
order, not with first-appearance order.  (Stability is immediate: the
code of a value is a pure function of the fitted class list, which the
apply path never mutates.) -/
theorem C6_amended (vs : List String) (v w : String) (hv : v ∈ vs) (hw : w ∈ vs) :
    strLt v w ↔ leTransform1 (leFit vs) v < leTransform1 (leFit vs) w := by
  have h := indexOf_lt_of_pairwise_lt (leFit vs) (pairwise_lt_leFit vs)
    (mem_leFit.mpr hv) (mem_leFit.mpr hw)
  simp only [leTransform1]
  exact h.trans Nat.cast_lt.symm

theorem C6_witness :
    leTransform1 (leFit ["b", "a"]) "a" < leTransform1 (leFit ["b", "a"]) "b" :=
  (C6_amended ["b", "a"] "a" "b" (by decide) (by decide)).mp (by decide)

/-- Claim C8: a numeric column that is constant over the fit set has mean
equal to that constant and standard deviation `0`; the zero scale is
replaced by `1` (`_handle_zeros_in_scale`), so the same constant scales to
exactly `0` at apply time, and the fitted scale is never `0` for any
column, so scaling never divides by zero. -/
theorem C8_zero_variance (c : ℚ) (n : ℕ) (hn : 0 < n) :
    scalerFitCol (List.replicate n c) = (c, 1) ∧
      scaleVal c 1 c = 0 ∧
      ∀ xs : List ℚ, (scalerFitCol xs).2 ≠ 0 := by
  have hmean : colMean (List.replicate n c) = c := by
    rw [colMean, List.sum_replicate, List.length_replicate, nsmul_eq_mul]
    exact mul_div_cancel_left₀ c (Nat.cast_ne_zero.mpr hn.ne')
  have hvar : colVar (List.replicate n c) = 0 := by
    rw [colVar, hmean, List.map_replicate]
    simp
  have hsqrt : ratSqrt 0 = 0 := by decide
  refine ⟨?_, by rw [scaleVal]; simp, fun xs => ?_⟩
  · rw [scalerFitCol, hmean, hvar, hsqrt, handleZeros, if_pos rfl]
  · dsimp only [scalerFitCol]
    by_cases hz : ratSqrt (colVar xs) = 0
    · rw [handleZeros, if_pos hz]
      exact one_ne_zero
    · rw [handleZeros, if_neg hz]
      exact hz

theorem C8_witness :
    scalerFitCol (List.replicate 3 (5 : ℚ)) = (5, 1) ∧ scaleVal 5 1 5 = 0 ∧
      ∀ xs : List ℚ, (scalerFitCol xs).2 ≠ 0 :=
  C8_zero_variance 5 3 (by decide)

/-- Claim C9, counterexample: a batch with no `timestamp` column passes
through `create_temporal_features` unchanged — the `if datetime_col in
df.columns:` guard silently skips every temporal transform instead of
failing with an error naming the missing field. -/
theorem C9_counterexample :
    create_temporal_features [("amount", Col.num [100])]
      = .ok [("amount", Col.num [100])] := rfl

/-- Claim C9, amended: a batch missing `amount` (or, with `amount`
present, missing `avg_transaction_amount_30d`) makes
`create_amount_features` fail with a pandas `KeyError` naming the missing
column (not a dedicated `MissingFieldError`); but a batch missing
`timestamp` does NOT fail — `create_temporal_features` silently returns
it unchanged, skipping all temporal transforms. -/
theorem C9_amended (log1p : ℚ → ℚ) (df : Frame) :
    (frameHas df "amount" = false →
      create_amount_features log1p df = .error ("KeyError: " ++ "amount")) ∧
    (∀ vs, getNumCol df "amount" = .ok vs →
      frameHas df "avg_transaction_amount_30d" = false →
      create_amount_features log1p df
        = .error ("KeyError: " ++ "avg_transaction_amount_30d")) ∧
    (frameHas df "timestamp" = false → create_temporal_features df = .ok df) := by
  refine ⟨fun h => ?_, fun vs hvs h => ?_, fun h => ?_⟩
  · have hg : getNumCol df "amount" = .error ("KeyError: " ++ "amount") := by
      rw [getNumCol, frameGet_eq_none h]
    simp only [create_amount_features, hg]
  · simp only [create_amount_features, hvs]
    simp only [getNumCol]
    rw [frameGet_frameSet_ne
        (show ("avg_transaction_amount_30d" : String) ≠ "amount_category" from by decide),
      frameGet_frameSet_ne
        (show ("avg_transaction_amount_30d" : String) ≠ "amount_log" from by decide),
      frameGet_eq_none h]
  · simp only [create_temporal_features, frameGet_eq_none h]

theorem C9_witness :
    create_amount_features id [("x", Col.num [1])] = .error ("KeyError: " ++ "amount") ∧
    create_amount_features id [("amount", Col.num [100])]
      = .error ("KeyError: " ++ "avg_transaction_amount_30d") ∧
    create_temporal_features [("amount", Col.num [100])] = .ok [("amount", Col.num [100])] :=
  ⟨(C9_amended id [("x", Col.num [1])]).1 (by decide),
   (C9_amended id [("amount", Col.num [100])]).2.1 [100] (by decide) (by decide),
   (C9_amended id [("amount", Col.num [100])]).2.2 (by decide)⟩

/-- Claim C7: the drift scan reports `drift_detected = true` exactly when
some column present in both frames, with nonempty samples in both after
`dropna`, gets a KS result whose p-value is strictly below the threshold;
columns present in only one frame, empty after `dropna`, or whose test
raised (a `none` from the abstract test) are skipped and never flagged.
The `Nodup` hypotheses restrict to well-formed frames with distinct
column names, the only ones the pandas model is faithful for. -/
theorem C7_drift_aggregation (ks : KSTest) (b n : DFrame) (t : ℚ)
    (_hb : (dframeCols b).Nodup) (_hn : (dframeCols n).Nodup) :
    (detect_data_drift ks b n t).drift_detected = true ↔
      ∃ col bc nc, col ∈ dframeCols b ∧ col ∈ dframeCols n ∧
        dframeGet b col = some bc ∧ dframeGet n col = some nc ∧
        dropna bc ≠ [] ∧ dropna nc ≠ [] ∧
        ∃ s p, ks (dropna bc) (dropna nc) = some (s, p) ∧ p < t := by
  rw [detect_data_drift_eq]
  simp only [List.any_eq_true, Option.isSome_iff_exists]
  constructor
  · rintro ⟨col, hmem, e, he⟩
    obtain ⟨bc, nc, s, p, h1, h2, h3, h4, h5, h6, _⟩ := driftEntryFor_eq_some_iff.mp he
    obtain ⟨hcb, hcn⟩ := mem_commonCols.mp hmem
    exact ⟨col, bc, nc, hcb, hcn, h1, h2, h3, h4, s, p, h5, h6⟩
  · rintro ⟨col, bc, nc, hcb, hcn, h1, h2, h3, h4, s, p, h5, h6⟩
    exact ⟨col, mem_commonCols.mpr ⟨hcb, hcn⟩, ⟨col, p, s⟩,
      driftEntryFor_eq_some_iff.mpr ⟨bc, nc, s, p, h1, h2, h3, h4, h5, h6, rfl⟩⟩

unseal Rat.mul Rat.inv Rat.add Rat.sub in
theorem C7_witness :
    (detect_data_drift (fun _ _ => some (1/2, 1/100))
        [("amount", [some (1 : ℚ)])] [("amount", [some (2 : ℚ)])]
        (1/20)).drift_detected = true :=
  (C7_drift_aggregation (fun _ _ => some (1/2, 1/100))
      [("amount", [some (1 : ℚ)])] [("amount", [some (2 : ℚ)])] (1/20)
      (by decide) (by decide)).mpr
    ⟨"amount", [some 1], [some 2], by decide, by decide, rfl, rfl, by decide, by decide,
     1/2, 1/100, rfl, by decide⟩

/-- Claim C10: the `features_with_drift` list contains exactly one entry
`{feature, p_value, statistic}` for each tested column whose p-value fell
strictly below the threshold; tested-but-unflagged columns, skipped
columns, and columns whose per-column test raised leave no entry.
The `Nodup` hypotheses restrict to frames with distinct column names,
the only ones the pandas model is faithful for. -/
theorem C10_flagged_entries (ks : KSTest) (b n : DFrame) (t : ℚ)
    (_hb : (dframeCols b).Nodup) (_hn : (dframeCols n).Nodup) (e : DriftEntry) :
    e ∈ (detect_data_drift ks b n t).features_with_drift ↔
      ∃ col bc nc s p, col ∈ dframeCols b ∧ col ∈ dframeCols n ∧
        dframeGet b col = some bc ∧ dframeGet n col = some nc ∧
        dropna bc ≠ [] ∧ dropna nc ≠ [] ∧
        ks (dropna bc) (dropna nc) = some (s, p) ∧ p < t ∧
        e = ⟨col, p, s⟩ := by
  rw [detect_data_drift_eq]
  simp only [List.mem_filterMap]
  constructor
  · rintro ⟨col, hmem, he⟩
    obtain ⟨bc, nc, s, p, h1, h2, h3, h4, h5, h6, h7⟩ := driftEntryFor_eq_some_iff.mp he
    obtain ⟨hcb, hcn⟩ := mem_commonCols.mp hmem
    exact ⟨col, bc, nc, s, p, hcb, hcn, h1, h2, h3, h4, h5, h6, h7⟩
  · rintro ⟨col, bc, nc, s, p, hcb, hcn, h1, h2, h3, h4, h5, h6, rfl⟩
    exact ⟨col, mem_commonCols.mpr ⟨hcb, hcn⟩,
      driftEntryFor_eq_some_iff.mpr ⟨bc, nc, s, p, h1, h2, h3, h4, h5, h6, rfl⟩⟩

unseal Rat.mul Rat.inv Rat.add Rat.sub in
theorem C10_witness :
    (⟨"amount", 1/100, 1/2⟩ : DriftEntry)
      ∈ (detect_data_drift (fun _ _ => some (1/2, 1/100))
          [("amount", [some (1 : ℚ)])] [("amount", [some (2 : ℚ)])]
          (1/20)).features_with_drift :=
  (C10_flagged_entries (fun _ _ => some (1/2, 1/100))
      [("amount", [some (1 : ℚ)])] [("amount", [some (2 : ℚ)])] (1/20)
      (by decide) (by decide) ⟨"amount", 1/100, 1/2⟩).mpr
    ⟨"amount", [some 1], [some 2], 1/2, 1/100, by decide, by decide, rfl, rfl,
     by decide, by decide, rfl, by decide, rfl⟩

/-- Claim C1: train/serve parity.  When `fit_transform` succeeds on a
batch (with distinct column names, the only well-formed pandas frames),
a subsequent `transform` of the same batch against the fitted state
succeeds and returns exactly the same feature matrix — same column
order, same values — and the same target vector. -/
theorem C1_train_serve_parity (st0 : PreState) (df : Frame)
    (hnd : (frameCols df).Nodup)
    (st1 : PreState) (X : Frame) (y : Option Col)
    (h : fit_transform st0 df = .ok (st1, X, y)) :
    transform st1 df = .ok (X, y) := by
  have hnodupCat : (identify_feature_types st0 df).categorical_features.Nodup :=
    identify_cat_nodup st0 df hnd
  by_cases hT : frameHas df (identify_feature_types st0 df).target_col = true <;>
  · simp only [fit_transform, encode_categorical_features, scale_numeric_features,
      eq_self_iff_true, if_true, hT, if_false, Bool.false_eq_true] at h
    split at h
    · exact Except.noConfusion h
    · rename_i st2 dfS heq
      simp only [Except.ok.injEq, Prod.mk.injEq] at h
      obtain ⟨h1, h2, h3⟩ := h
      subst h1
      subst h2
      subst h3
      split at heq
      · exact Except.noConfusion heq
      · rename_i cols hMAP
        split at heq
        · exact Except.noConfusion heq
        · rename_i d hAPP
          simp only [Except.ok.injEq, Prod.mk.injEq] at heq
          obtain ⟨g1, g2⟩ := heq
          subst g1
          subst g2
          simp only [transform, encode_categorical_features, scale_numeric_features,
            eq_self_iff_true, if_true, hT, if_false, Bool.false_eq_true]
          rw [encFold_parity _ hnodupCat _ _]
          rw [hAPP]

unseal Rat.mul Rat.inv Rat.add Rat.sub in
/-- Witness for C1 at a concrete two-row batch: `fit_transform` succeeds,
and `transform` on the identical batch with the fitted state reproduces
the matrix, as the parity theorem predicts. -/
theorem C1_witness :
    fit_transform (initState "is_fraud")
        [("transaction_id", Col.cat ["t1", "t2"]),
         ("merchant_category", Col.cat ["gas", "food"]),
         ("amount", Col.num [10, 20]),
         ("is_fraud", Col.num [0, 1])]
      = .ok (⟨"is_fraud", [("merchant_category", ["food", "gas"])], some ⟨[15], [5]⟩,
              ["amount"], ["merchant_category"], ["transaction_id", "is_fraud"]⟩,
             [("merchant_category", Col.num [1, 0]), ("amount", Col.num [-1, 1])],
             some (Col.num [0, 1])) ∧
    transform
        (⟨"is_fraud", [("merchant_category", ["food", "gas"])], some ⟨[15], [5]⟩,
          ["amount"], ["merchant_category"], ["transaction_id", "is_fraud"]⟩)
        [("transaction_id", Col.cat ["t1", "t2"]),
         ("merchant_category", Col.cat ["gas", "food"]),
         ("amount", Col.num [10, 20]),
         ("is_fraud", Col.num [0, 1])]
      = .ok ([("merchant_category", Col.num [1, 0]), ("amount", Col.num [-1, 1])],
             some (Col.num [0, 1])) :=
  ⟨by decide,
   C1_train_serve_parity (initState "is_fraud")
     [("transaction_id", Col.cat ["t1", "t2"]),
      ("merchant_category", Col.cat ["gas", "food"]),
      ("amount", Col.num [10, 20]),
      ("is_fraud", Col.num [0, 1])]
     (by decide) _ _ _ (by decide)⟩

end FraudPipeline
